import Mathlib

/-!
Shallow embedding of the on-device training example notebook
(`on_device_training/mobile/android/c-cpp/train.ipynb`).

The notebook's own code is: a dataset indexer (`load_dataset_files`), an
image preprocessor (`image_file_to_tensor`), a training loop driving an
opaque external training runtime, and a softmax-based prediction display.
Pixel and tensor values are modelled as exact rationals `ℚ` (the source
uses 32-bit floats); image dimensions are `ℕ` (PIL sizes are non-negative
Python ints, and Python's floor division `//` agrees with `Nat` division
on the non-negative operands appearing here).  The external training
runtime (checkpoint / module / optimizer) is opaque in the source and is
modelled as an abstract state machine.
-/

namespace OrtDemo

/-- Fixed class labels, mirroring `dog, cat, elephant, cow = "dog", "cat", "elephant", "cow"`. -/
def dog : String := "dog"

/-- Label string for the cat class. -/
def cat : String := "cat"

/-- Label string for the elephant class. -/
def elephant : String := "elephant"

/-- Label string for the cow class. -/
def cow : String := "cow"

/-- Default path value used only to express list indexing via `List.getD`. -/
def emptyPath : String := ""

/-- The class keys of the `animals` dictionary in their insertion order,
which is the iteration order of `for animal in animals` (Python 3.7+ dicts
preserve insertion order). -/
def animalsOrder : List String := [dog, cat, elephant, cow]

/-- The `label_to_id_map` dictionary of the notebook. -/
def label_to_id_map : List (String × ℕ) := [(dog, 0), (cat, 1), (elephant, 2), (cow, 3)]

/-- Dictionary access `label_to_id_map[animal]`, as a lookup. -/
def lookupId (a : String) : Option ℕ := List.lookup a label_to_id_map

/-- The notebook's `num_samples_per_class = 20`. -/
def num_samples_per_class : ℕ := 20

/-- The notebook's `num_epochs = 5`. -/
def num_epochs : ℕ := 5

/-- A filesystem for the dataset indexer: maps a glob pattern to the list
of matching paths, or `none` when the directory the pattern points into
does not exist. -/
def globMatches (fs : String → Option (List String)) (pat : String) : List String :=
  (fs pat).getD []

/-- The glob pattern `f"data/images/{animal}/*"` used by `load_dataset_files`. -/
def imagePattern (a : String) : String := "data/images/" ++ a ++ "/*"

/-- The notebook's `load_dataset_files`: builds the `animals` dictionary
mapping each class label to `glob.glob(f"data/images/{animal}/*")`.
`glob.glob` returns `[]` (without raising) when the directory is missing,
which `globMatches` models. -/
def load_dataset_files (fs : String → Option (List String)) : List (String × List String) :=
  animalsOrder.map (fun a => (a, globMatches fs (imagePattern a)))

/-- The crop box `(left, top, right, bottom)` passed to `Image.crop`. -/
structure CropBox where
  left : ℕ
  top : ℕ
  right : ℕ
  bottom : ℕ
  deriving Repr, DecidableEq

/-- The crop-bound computation of `image_file_to_tensor`:
`if width > height: left=(width-height)//2; right=(width+height)//2; top=0; bottom=height`
`else: left=0; right=width; top=(height-width)//2; bottom=(height+width)//2`. -/
def cropBounds (width height : ℕ) : CropBox :=
  if width > height then
    ⟨(width - height) / 2, 0, (width + height) / 2, height⟩
  else
    ⟨0, (height - width) / 2, width, (height + width) / 2⟩

/-- One RGB pixel, with exact rational channel values (the decoded 8-bit
channels, 0–255). -/
structure RGB where
  r : ℚ
  g : ℚ
  b : ℚ
  deriving Repr, DecidableEq

/-- A decoded image: a width × height pixel grid.  The model assumes a
3-channel RGB decode, which is exactly the case in which `np.transpose`
with axes `(2, 0, 1)` succeeds in the source. -/
structure Img where
  width : ℕ
  height : ℕ
  pixel : ℕ → ℕ → RGB

/-- `image.crop((left, top, right, bottom))`: the result has size
`(right - left, bottom - top)` and pixel `(x, y)` taken from
`(left + x, top + y)` of the original. -/
def cropImg (img : Img) (box : CropBox) : Img :=
  ⟨box.right - box.left, box.bottom - box.top,
   fun x y => img.pixel (box.left + x) (box.top + y)⟩

/-- `image.resize((w, h))`.  The source uses PIL's default resampling
filter; the spec declares the filter an implementation detail.  Modelled
as nearest-neighbour sampling, which agrees with any standard filter on
the properties verified here (output dimensions, constant images). -/
def resizeImg (img : Img) (w h : ℕ) : Img :=
  ⟨w, h, fun x y => img.pixel (x * img.width / w) (y * img.height / h)⟩

/-- One plane of `np.transpose(np.array(image), (2, 0, 1))`: the array is
indexed `(height, width, channel)`, so plane `c` is the height × width
grid of channel `c` values. -/
def planar (f : RGB → ℚ) (img : Img) : List (List ℚ) :=
  (List.range img.height).map (fun y =>
    (List.range img.width).map (fun x => f (img.pixel x y)))

/-- The per-channel arithmetic `pix = pix / 255.0` followed by
`pix[c] = (pix[c] - mean) / std`, applied elementwise to one plane. -/
def normChan (mean std : ℚ) (chan : List (List ℚ)) : List (List ℚ) :=
  chan.map (List.map (fun v => (v / 255 - mean) / std))

/-- A (3, 224, 224) tensor as nested lists: channel, then row, then column. -/
abbrev Tensor := List (List (List ℚ))

/-- The notebook's `image_file_to_tensor`, from the decoded image on:
center-crop to a square via `cropBounds`, resize to 224×224, transpose to
planar channel order, scale by 1/255 and normalize each channel with the
literal constants of the source. -/
def image_file_to_tensor (img : Img) : Tensor :=
  let sq := resizeImg (cropImg img (cropBounds img.width img.height)) 224 224
  [normChan 0.485 0.229 (planar RGB.r sq),
   normChan 0.456 0.224 (planar RGB.g sq),
   normChan 0.406 0.225 (planar RGB.b sq)]

/-- A training batch: `np.stack`-ed list of image tensors plus the
parallel list of label ids (`labels`). -/
abbrev Batch := List Tensor × List ℕ

/-- The inner `for animal in animals` loop of one training step: for each
class in iteration order, index `animals[animal][index]` (an out-of-range
index makes the whole step fail, like Python's `IndexError`), preprocess
the file, and collect `label_to_id_map[animal]` (a missing key likewise
fails, like `KeyError`).  `decode` is the file decoding performed by
`Image.open`. -/
def buildBatchGo (decode : String → Img) (files : String → List String) (index : ℕ) :
    List String → Option Batch
  | [] => some ([], [])
  | a :: rest =>
    match (files a)[index]?, lookupId a, buildBatchGo decode files index rest with
    | some f, some i, some p => some (image_file_to_tensor (decode f) :: p.1, i :: p.2)
    | _, _, _ => none

/-- The batch and label construction of one training step, over the fixed
class order. -/
def buildBatch (decode : String → Img) (files : String → List String) (index : ℕ) :
    Option Batch :=
  buildBatchGo decode files index animalsOrder

/-- The opaque external training runtime (checkpoint state, module,
optimizer), as an abstract state machine over a state type `S`:
`trainMode` is `model.train()`, `runModel` is `model([batch, labels])`
returning the scalar loss (`[0]`) and the post-execution state,
`optimizerStep` is `optimizer.step()` and `lazyResetGrad` is
`model.lazy_reset_grad()`. -/
structure OrtApi (S : Type) where
  trainMode : S → S
  runModel : S → Batch → ℚ × S
  optimizerStep : S → S
  lazyResetGrad : S → S

/-- The body of one training step after the batch is built:
`loss += model([batch, labels])[0]; optimizer.step(); model.lazy_reset_grad()`.
Returns the step's loss and the state after optimizer step and gradient
reset. -/
def runStep {S : Type} (api : OrtApi S) (s : S) (b : Batch) : ℚ × S :=
  let p := api.runModel s b
  (p.1, api.lazyResetGrad (api.optimizerStep p.2))

/-- The inner `for index in range(num_samples_per_class)` loop: threads
the loss accumulator `acc` and the runtime state through the listed step
indices; a failed batch construction aborts with the failing sample
index (Python's uncaught `IndexError`). -/
def runSteps {S : Type} (api : OrtApi S) (decode : String → Img)
    (files : String → List String) :
    List ℕ → ℚ → S → Except ℕ (ℚ × S)
  | [], acc, s => .ok (acc, s)
  | i :: rest, acc, s =>
    match buildBatch decode files i with
    | none => .error i
    | some b =>
      let p := runStep api s b
      runSteps api decode files rest (acc + p.1) p.2

/-- One epoch: `model.train()`, `loss = 0`, then the inner step loop over
`range N`. -/
def runEpoch {S : Type} (api : OrtApi S) (decode : String → Img)
    (files : String → List String) (N : ℕ) (s : S) : Except ℕ (ℚ × S) :=
  runSteps api decode files (List.range N) 0 (api.trainMode s)

/-- The `for epoch in range(num_epochs)` loop: each epoch resets the loss
accumulator, runs its steps and reports `loss / num_samples_per_class`
(the printed value); the reports are collected in epoch order.  A step
failure aborts the whole run with the failing sample index. -/
def trainingLoop {S : Type} (api : OrtApi S) (decode : String → Img)
    (files : String → List String) :
    ℕ → ℕ → S → Except ℕ (List ℚ × S)
  | 0, _, s => .ok ([], s)
  | e + 1, N, s =>
    match runEpoch api decode files N s with
    | .error i => .error i
    | .ok p =>
      match trainingLoop api decode files e N p.2 with
      | .error i => .error i
      | .ok q => .ok (p.1 / (N : ℚ) :: q.1, q.2)

/-- The sequence of per-step losses produced along the listed step
indices, with the final state (specification-side companion of
`runSteps`, used to state what each epoch's reported mean averages). -/
def stepLossList {S : Type} (api : OrtApi S) (decode : String → Img)
    (files : String → List String) :
    List ℕ → S → List ℚ × S
  | [], s => ([], s)
  | i :: rest, s =>
    match buildBatch decode files i with
    | none => ([], s)
    | some b =>
      let p := runStep api s b
      let q := stepLossList api decode files rest p.2
      (p.1 :: q.1, q.2)

/-- The per-epoch traces of per-step losses along the whole run
(specification-side companion of `trainingLoop`). -/
def epochTraces {S : Type} (api : OrtApi S) (decode : String → Img)
    (files : String → List String) :
    ℕ → ℕ → S → List (List ℚ) × S
  | 0, _, s => ([], s)
  | e + 1, N, s =>
    let p := stepLossList api decode files (List.range N) (api.trainMode s)
    let q := epochTraces api decode files e N p.2
    (p.1 :: q.1, q.2)

/-- The minimum number of files available over the four classes: the
first sample index at which indexing `animals[animal][index]` goes out of
range for the shortest class list. -/
def minFileLen (files : String → List String) : ℕ :=
  min (files dog).length
    (min (files cat).length (min (files elephant).length (files cow).length))

/-- The notebook's `softmax`: `np.exp(logits) / np.exp(logits).sum()`,
over real-valued logits. -/
noncomputable def softmax (logits : List ℝ) : List ℝ :=
  logits.map (fun x => Real.exp x / (logits.map Real.exp).sum)

/-- The `probabilities = softmax(logits) * 100` computation of `predict`. -/
noncomputable def predictProbabilities (logits : List ℝ) : List ℝ :=
  (softmax logits).map (fun p => p * 100)

/-- A trivial instantiation of the external runtime over the unit state,
used to exercise the loop theorems on concrete inputs. -/
def trivialApi : OrtApi Unit :=
  ⟨id, fun s _ => (0, s), id, id⟩

/-- A trivial decoder mapping every path to an empty image, used to
exercise the loop theorems on concrete inputs. -/
def trivialDecode : String → Img :=
  fun _ => ⟨0, 0, fun _ _ => ⟨0, 0, 0⟩⟩

/-- A dataset with `num_samples_per_class` files for every class. -/
def fullFiles : String → List String :=
  fun _ => List.replicate num_samples_per_class emptyPath

/-- A dataset with no files for any class. -/
def emptyFiles : String → List String :=
  fun _ => []

/-- A filesystem on which every directory is missing. -/
def noneFS : String → Option (List String) :=
  fun _ => none

/-- C1 counterexample: at width 3, height 2 the crop removes a right
margin of `3 - right = 1`, not `(3 - 2) / 2 = 0`: the two margins are not
both `(width - height) / 2` when the difference is odd. -/
theorem crop_margin_claim_false :
    3 > 2 ∧ ¬ (3 - (cropBounds 3 2).right = (3 - 2) / 2) := by decide

/-- C1 (amended): when width > height the crop removes a left margin of
`(width - height) / 2` (truncating division) and a right margin of
`(width - height) - (width - height) / 2` — equal to the left margin when
the difference is even and one larger when it is odd — and removes
nothing vertically; symmetrically, when height >= width it removes a top
margin of `(height - width) / 2`, a bottom margin of
`(height - width) - (height - width) / 2`, and nothing horizontally. -/
theorem crop_margins (w h : ℕ) :
    (cropBounds w h).left = (if w > h then (w - h) / 2 else 0) ∧
    w - (cropBounds w h).right = (if w > h then (w - h) - (w - h) / 2 else 0) ∧
    (cropBounds w h).top = (if w > h then 0 else (h - w) / 2) ∧
    h - (cropBounds w h).bottom = (if w > h then 0 else (h - w) - (h - w) / 2) := by
  unfold cropBounds
  split <;> refine ⟨?_, ?_, ?_, ?_⟩ <;> simp_all <;> omega

/-- C2: for positive dimensions, the crop region is a square of side
`min width height`. -/
theorem crop_side_eq_min (w h : ℕ) (hw : 0 < w) (hh : 0 < h) :
    (cropBounds w h).right - (cropBounds w h).left = min w h ∧
    (cropBounds w h).bottom - (cropBounds w h).top = min w h := by
  unfold cropBounds
  split <;> constructor <;> simp_all <;> omega

/-- Witness for C2 at width 5, height 3. -/
theorem crop_side_eq_min_witness :
    0 < 5 ∧ 0 < 3 ∧
      ((cropBounds 5 3).right - (cropBounds 5 3).left = min 5 3 ∧
       (cropBounds 5 3).bottom - (cropBounds 5 3).top = min 5 3) :=
  ⟨by decide, by decide, crop_side_eq_min 5 3 (by decide) (by decide)⟩

/-- C3: on a square image the crop is a no-op: the computed bounds are
left 0, top 0, right the width, bottom the height — the full image. -/
theorem crop_square_noop (w : ℕ) :
    cropBounds w w = ⟨0, 0, w, w⟩ := by
  simp [cropBounds]
  omega

/-- C10: for positive dimensions the crop box stays within the pixel
grid: `left ≤ right ≤ width` and `top ≤ bottom ≤ height` (lower bounds 0
hold by the `ℕ` value domain, matching the non-negative PIL sizes). -/
theorem crop_bounds_within_image (w h : ℕ) (hw : 0 < w) (hh : 0 < h) :
    (cropBounds w h).left ≤ (cropBounds w h).right ∧
    (cropBounds w h).right ≤ w ∧
    (cropBounds w h).top ≤ (cropBounds w h).bottom ∧
    (cropBounds w h).bottom ≤ h := by
  unfold cropBounds
  split <;> refine ⟨?_, ?_, ?_, ?_⟩ <;> simp_all <;> omega

/-- Witness for C10 at width 4, height 7. -/
theorem crop_bounds_within_image_witness :
    0 < 4 ∧ 0 < 7 ∧
      ((cropBounds 4 7).left ≤ (cropBounds 4 7).right ∧
       (cropBounds 4 7).right ≤ 4 ∧
       (cropBounds 4 7).top ≤ (cropBounds 4 7).bottom ∧
       (cropBounds 4 7).bottom ≤ 7) :=
  ⟨by decide, by decide, crop_bounds_within_image 4 7 (by decide) (by decide)⟩

/-- One normalized plane built from an image has the image's height as
its number of rows and its width as the length of every row. -/
lemma normChan_planar_shape (mean std : ℚ) (f : RGB → ℚ) (img : Img) :
    (normChan mean std (planar f img)).length = img.height ∧
    ∀ row ∈ normChan mean std (planar f img), row.length = img.width := by
  constructor
  · simp [normChan, planar]
  · intro row hrow
    simp [normChan, planar, List.mem_map] at hrow
    obtain ⟨y, hy, rfl⟩ := hrow
    simp

/-- C4: for any decoded 3-channel image, the preprocessor's output has
shape (3, 224, 224): 3 channel planes, each with 224 rows of 224 values,
whatever the input width, height or aspect ratio. -/
theorem tensor_shape (img : Img) :
    (image_file_to_tensor img).length = 3 ∧
    ∀ chan ∈ image_file_to_tensor img, chan.length = 224 ∧
      ∀ row ∈ chan, row.length = 224 := by
  refine ⟨rfl, ?_⟩
  intro chan hchan
  have h224 : ∀ mean std : ℚ, ∀ f : RGB → ℚ,
      (normChan mean std (planar f
        (resizeImg (cropImg img (cropBounds img.width img.height)) 224 224))).length = 224 ∧
      ∀ row ∈ normChan mean std (planar f
        (resizeImg (cropImg img (cropBounds img.width img.height)) 224 224)),
        row.length = 224 := by
    intro mean std f
    exact normChan_planar_shape mean std f _
  simp only [image_file_to_tensor, List.mem_cons, List.not_mem_nil, or_false] at hchan
  rcases hchan with rfl | rfl | rfl
  · exact ⟨(h224 _ _ _).1, (h224 _ _ _).2⟩
  · exact ⟨(h224 _ _ _).1, (h224 _ _ _).2⟩
  · exact ⟨(h224 _ _ _).1, (h224 _ _ _).2⟩

/-- Every value of a normalized plane built from an image whose selected
channel is the constant `v` equals `(v / 255 - mean) / std`. -/
lemma normChan_planar_const (mean std v : ℚ) (f : RGB → ℚ) (img : Img)
    (h : ∀ x y, f (img.pixel x y) = v) :
    ∀ row ∈ normChan mean std (planar f img), ∀ q ∈ row,
      q = (v / 255 - mean) / std := by
  intro row hrow q hq
  simp [normChan, planar, List.mem_map] at hrow
  obtain ⟨y, hy, rfl⟩ := hrow
  simp [List.mem_map, h] at hq
  exact hq.2.symm

/-- C5: for an image whose pixels all carry the 8-bit channel values
`(v0, v1, v2)`, every value of output channel 0 is
`(v0/255 - 0.485) / 0.229`, of channel 1 is `(v1/255 - 0.456) / 0.224`,
and of channel 2 is `(v2/255 - 0.406) / 0.225` — the literal per-channel
mean/std constants of the source. -/
theorem normalize_uniform (img : Img) (v0 v1 v2 : ℚ)
    (_hb0 : 0 ≤ v0 ∧ v0 ≤ 255) (_hb1 : 0 ≤ v1 ∧ v1 ≤ 255) (_hb2 : 0 ≤ v2 ∧ v2 ≤ 255)
    (hpix : ∀ x y, img.pixel x y = ⟨v0, v1, v2⟩) :
    (∀ row ∈ (image_file_to_tensor img).getD 0 [], ∀ q ∈ row,
        q = (v0 / 255 - 0.485) / 0.229) ∧
    (∀ row ∈ (image_file_to_tensor img).getD 1 [], ∀ q ∈ row,
        q = (v1 / 255 - 0.456) / 0.224) ∧
    (∀ row ∈ (image_file_to_tensor img).getD 2 [], ∀ q ∈ row,
        q = (v2 / 255 - 0.406) / 0.225) := by
  have hsq : ∀ x y,
      (resizeImg (cropImg img (cropBounds img.width img.height)) 224 224).pixel x y
        = ⟨v0, v1, v2⟩ := by
    intro x y
    simp [resizeImg, cropImg, hpix]
  refine ⟨?_, ?_, ?_⟩
  · exact normChan_planar_const 0.485 0.229 v0 RGB.r _ (fun x y => by rw [hsq])
  · exact normChan_planar_const 0.456 0.224 v1 RGB.g _ (fun x y => by rw [hsq])
  · exact normChan_planar_const 0.406 0.225 v2 RGB.b _ (fun x y => by rw [hsq])

/-- Witness for C5: a 10 × 5 image uniformly filled with the 8-bit values
(100, 50, 200). -/
theorem normalize_uniform_witness :
    ((0 : ℚ) ≤ 100 ∧ (100 : ℚ) ≤ 255) ∧ ((0 : ℚ) ≤ 50 ∧ (50 : ℚ) ≤ 255) ∧
    ((0 : ℚ) ≤ 200 ∧ (200 : ℚ) ≤ 255) ∧
    (∀ x y, (Img.mk 10 5 (fun _ _ => ⟨100, 50, 200⟩)).pixel x y = ⟨100, 50, 200⟩) ∧
    ((∀ row ∈ (image_file_to_tensor (Img.mk 10 5 (fun _ _ => ⟨100, 50, 200⟩))).getD 0 [],
        ∀ q ∈ row, q = ((100 : ℚ) / 255 - 0.485) / 0.229) ∧
     (∀ row ∈ (image_file_to_tensor (Img.mk 10 5 (fun _ _ => ⟨100, 50, 200⟩))).getD 1 [],
        ∀ q ∈ row, q = ((50 : ℚ) / 255 - 0.456) / 0.224) ∧
     (∀ row ∈ (image_file_to_tensor (Img.mk 10 5 (fun _ _ => ⟨100, 50, 200⟩))).getD 2 [],
        ∀ q ∈ row, q = ((200 : ℚ) / 255 - 0.406) / 0.225)) :=
  ⟨⟨by decide, by decide⟩, ⟨by decide, by decide⟩, ⟨by decide, by decide⟩,
   fun _ _ => rfl,
   normalize_uniform (Img.mk 10 5 (fun _ _ => ⟨100, 50, 200⟩)) 100 50 200
     ⟨by decide, by decide⟩ ⟨by decide, by decide⟩ ⟨by decide, by decide⟩
     (fun _ _ => rfl)⟩

/-- Scalar factoring of a sum of scaled exponential ratios. -/
lemma sum_map_exp_div_mul (l : List ℝ) (c : ℝ) :
    (l.map (fun x => Real.exp x / c * 100)).sum = (l.map Real.exp).sum / c * 100 := by
  induction l with
  | nil => simp
  | cons a t ih => simp [ih, add_div, add_mul]

/-- C6: on any nonempty logit vector, the `softmax(logits) * 100` values
computed by `predict` sum to exactly 100 (in the exact real-number model
of the floating-point arithmetic). -/
theorem softmax_scaled_sum (logits : List ℝ) (h : logits ≠ []) :
    (predictProbabilities logits).sum = 100 := by
  have hS : 0 < (logits.map Real.exp).sum := by
    apply List.sum_pos
    · intro x hx
      obtain ⟨y, hy, rfl⟩ := List.mem_map.mp hx
      exact Real.exp_pos y
    · simpa using h
  have h1 : predictProbabilities logits =
      logits.map (fun x => Real.exp x / (logits.map Real.exp).sum * 100) := by
    simp [predictProbabilities, softmax, List.map_map]
  rw [h1, sum_map_exp_div_mul, div_self (ne_of_gt hS), one_mul]

/-- Witness for C6 on the singleton logit vector `[0]`. -/
theorem softmax_scaled_sum_witness :
    ([(0 : ℝ)] ≠ []) ∧ (predictProbabilities [(0 : ℝ)]).sum = 100 :=
  ⟨List.cons_ne_nil 0 [], softmax_scaled_sum [(0 : ℝ)] (List.cons_ne_nil 0 [])⟩

/-- Every class label of the iteration order has an id in `label_to_id_map`. -/
lemma lookupId_all_isSome : ∀ a ∈ animalsOrder, (lookupId a).isSome := by decide

/-- When every listed class has more than `i` files, the step's batch
construction succeeds and returns one preprocessed tensor per class, in
list order, with the parallel label ids. -/
lemma buildBatchGo_eq_some (decode : String → Img) (files : String → List String) (i : ℕ) :
    ∀ l : List String, (∀ a ∈ l, i < (files a).length) →
      (∀ a ∈ l, (lookupId a).isSome) →
      buildBatchGo decode files i l =
        some (l.map (fun a => image_file_to_tensor (decode ((files a).getD i emptyPath))),
              l.map (fun a => (lookupId a).getD 0)) := by
  intro l
  induction l with
  | nil => intro _ _; rfl
  | cons a t ih =>
    intro h1 h2
    have ha1 : i < (files a).length := h1 a (List.mem_cons_self a t)
    have ha2 : (lookupId a).isSome := h2 a (List.mem_cons_self a t)
    have hf : (files a)[i]? = some ((files a).getD i emptyPath) := by
      simp [List.getD_eq_getElem?_getD, List.getElem?_eq_getElem ha1]
    obtain ⟨n, hn⟩ := Option.isSome_iff_exists.mp ha2
    have ht := ih (fun b hb => h1 b (List.mem_cons_of_mem a hb))
      (fun b hb => h2 b (List.mem_cons_of_mem a hb))
    simp only [buildBatchGo, hf, hn, ht, List.map_cons, Option.getD_some]

/-- If some listed class has at most `i` files, the step's batch
construction fails (an out-of-range index access in the source). -/
lemma buildBatchGo_eq_none (decode : String → Img) (files : String → List String) (i : ℕ) :
    ∀ l : List String, (∃ a ∈ l, (files a).length ≤ i) →
      buildBatchGo decode files i l = none := by
  intro l
  induction l with
  | nil => rintro ⟨a, ha, _⟩; simp at ha
  | cons a t ih =>
    rintro ⟨b, hb, hlen⟩
    rcases List.mem_cons.mp hb with rfl | hbt
    · have hno : (files b)[i]? = none := by
        rw [List.getElem?_eq_none_iff]
        exact hlen
      simp [buildBatchGo, hno]
    · have ht : buildBatchGo decode files i t = none := ih ⟨b, hbt, hlen⟩
      cases hfo : (files a)[i]? with
      | none => simp [buildBatchGo, hfo]
      | some f =>
        cases hlo : lookupId a with
        | none => simp [buildBatchGo, hfo, hlo]
        | some n => simp [buildBatchGo, hfo, hlo, ht]

/-- C9: whenever every class list is long enough at the sample index, the
constructed batch is exactly one preprocessed tensor per class in the
fixed iteration order dog, cat, elephant, cow, and the parallel label
array is `[0, 1, 2, 3]`. -/
theorem batch_order_and_labels (decode : String → Img) (files : String → List String)
    (index : ℕ) (h : ∀ a ∈ animalsOrder, index < (files a).length) :
    buildBatch decode files index =
      some (animalsOrder.map
              (fun a => image_file_to_tensor (decode ((files a).getD index emptyPath))),
            [0, 1, 2, 3]) ∧
    (animalsOrder.map
        (fun a => image_file_to_tensor (decode ((files a).getD index emptyPath)))).length
      = animalsOrder.length := by
  constructor
  · rw [buildBatch, buildBatchGo_eq_some decode files index animalsOrder h lookupId_all_isSome]
    have hlab : animalsOrder.map (fun a => (lookupId a).getD 0) = [0, 1, 2, 3] := by decide
    rw [hlab]
  · simp

/-- Witness for C9: four one-file class lists at sample index 0. -/
theorem batch_order_and_labels_witness :
    (∀ a ∈ animalsOrder, 0 < ((fun _ : String => [emptyPath]) a).length) ∧
    (buildBatch trivialDecode (fun _ : String => [emptyPath]) 0 =
      some (animalsOrder.map
              (fun a => image_file_to_tensor
                (trivialDecode (((fun _ : String => [emptyPath]) a).getD 0 emptyPath))),
            [0, 1, 2, 3]) ∧
     (animalsOrder.map
        (fun a => image_file_to_tensor
          (trivialDecode (((fun _ : String => [emptyPath]) a).getD 0 emptyPath)))).length
       = animalsOrder.length) :=
  ⟨by decide,
   batch_order_and_labels trivialDecode (fun _ : String => [emptyPath]) 0 (by decide)⟩

/-- Along step indices whose batches all build, the per-step loss list
has one entry per step. -/
lemma stepLossList_len {S : Type} (api : OrtApi S) (decode : String → Img)
    (files : String → List String) :
    ∀ (is : List ℕ) (s : S), (∀ i ∈ is, (buildBatch decode files i).isSome) →
      (stepLossList api decode files is s).1.length = is.length := by
  intro is
  induction is with
  | nil => intro s _; rfl
  | cons i t ih =>
    intro s h
    obtain ⟨b, hb⟩ := Option.isSome_iff_exists.mp (h i (List.mem_cons_self i t))
    simp [stepLossList, hb, ih _ (fun j hj => h j (List.mem_cons_of_mem i hj))]

/-- When every step's batch builds, the step loop succeeds and its
accumulated loss is the starting accumulator plus the sum of the
per-step losses, ending in the traced final state. -/
lemma runSteps_eq_ok {S : Type} (api : OrtApi S) (decode : String → Img)
    (files : String → List String) :
    ∀ (is : List ℕ) (acc : ℚ) (s : S),
      (∀ i ∈ is, (buildBatch decode files i).isSome) →
      runSteps api decode files is acc s =
        .ok (acc + (stepLossList api decode files is s).1.sum,
             (stepLossList api decode files is s).2) := by
  intro is
  induction is with
  | nil => intro acc s _; simp [runSteps, stepLossList]
  | cons i t ih =>
    intro acc s h
    obtain ⟨b, hb⟩ := Option.isSome_iff_exists.mp (h i (List.mem_cons_self i t))
    have ht := ih (acc + (runStep api s b).1) (runStep api s b).2
      (fun j hj => h j (List.mem_cons_of_mem i hj))
    simp [runSteps, stepLossList, hb, ht, add_assoc]

/-- C7: when every class has at least `N` files, the training loop
succeeds and reports exactly one loss value per epoch, each equal to the
sum of that epoch's `N` per-step losses divided by `N` (the accumulator
restarting from zero each epoch). -/
theorem training_reports_mean_loss {S : Type} (api : OrtApi S) (decode : String → Img)
    (files : String → List String) (E N : ℕ) (s0 : S)
    (h : ∀ a ∈ animalsOrder, N ≤ (files a).length) :
    trainingLoop api decode files E N s0 =
      .ok ((epochTraces api decode files E N s0).1.map (fun ls => ls.sum / (N : ℚ)),
           (epochTraces api decode files E N s0).2) ∧
    (epochTraces api decode files E N s0).1.length = E ∧
    ∀ ls ∈ (epochTraces api decode files E N s0).1, ls.length = N := by
  have hsome : ∀ i ∈ List.range N, (buildBatch decode files i).isSome := by
    intro i hi
    have hAll : ∀ a ∈ animalsOrder, i < (files a).length :=
      fun a ha => lt_of_lt_of_le (List.mem_range.mp hi) (h a ha)
    rw [buildBatch, buildBatchGo_eq_some decode files i animalsOrder hAll lookupId_all_isSome]
    rfl
  induction E generalizing s0 with
  | zero => exact ⟨rfl, rfl, by intro ls hls; simp [epochTraces] at hls⟩
  | succ e ih =>
    have hrun := runSteps_eq_ok api decode files (List.range N) 0 (api.trainMode s0) hsome
    have hlen := stepLossList_len api decode files (List.range N) (api.trainMode s0) hsome
    obtain ⟨ih1, ih2, ih3⟩ :=
      ih ((stepLossList api decode files (List.range N) (api.trainMode s0)).2)
    refine ⟨?_, ?_, ?_⟩
    · simp [trainingLoop, runEpoch, hrun, epochTraces, ih1]
    · simp [epochTraces, ih2]
    · intro ls hls
      simp only [epochTraces, List.mem_cons] at hls
      rcases hls with rfl | hls
      · simpa using hlen
      · exact ih3 ls hls

/-- Witness for C7: a run of `num_epochs` epochs over
`num_samples_per_class` samples per class on a dataset with exactly that
many files per class, under the trivial runtime. -/
theorem training_reports_mean_loss_witness :
    (∀ a ∈ animalsOrder, num_samples_per_class ≤ (fullFiles a).length) ∧
    (trainingLoop trivialApi trivialDecode fullFiles num_epochs num_samples_per_class () =
      .ok ((epochTraces trivialApi trivialDecode fullFiles
              num_epochs num_samples_per_class ()).1.map
                (fun ls => ls.sum / (num_samples_per_class : ℚ)),
           (epochTraces trivialApi trivialDecode fullFiles
              num_epochs num_samples_per_class ()).2) ∧
     (epochTraces trivialApi trivialDecode fullFiles
        num_epochs num_samples_per_class ()).1.length = num_epochs ∧
     ∀ ls ∈ (epochTraces trivialApi trivialDecode fullFiles
        num_epochs num_samples_per_class ()).1, ls.length = num_samples_per_class) :=
  ⟨by decide,
   training_reports_mean_loss trivialApi trivialDecode fullFiles
     num_epochs num_samples_per_class () (by decide)⟩

/-- On a contiguous index range, `find?` returns the least index
satisfying a predicate that is false below it. -/
lemma find_first_range' (p : ℕ → Bool) :
    ∀ (n s m : ℕ), s ≤ m → m < s + n →
      (∀ i, s ≤ i → i < m → p i = false) → p m = true →
      (List.range' s n).find? p = some m := by
  intro n
  induction n with
  | zero => intro s m h1 h2 _ _; omega
  | succ k ih =>
    intro s m h1 h2 h3 h4
    rw [List.range'_succ]
    rcases Nat.eq_or_lt_of_le h1 with rfl | hlt
    · simp [List.find?_cons, h4]
    · have hps : p s = false := h3 s le_rfl hlt
      rw [List.find?_cons_of_neg _ (by simp [hps])]
      exact ih (s + 1) m hlt (by omega) (fun i hi1 hi2 => h3 i (by omega) hi2) h4

/-- The step loop aborts with the first listed index whose batch fails
to build. -/
lemma runSteps_eq_error {S : Type} (api : OrtApi S) (decode : String → Img)
    (files : String → List String) :
    ∀ (is : List ℕ) (acc : ℚ) (s : S) (j : ℕ),
      is.find? (fun i => (buildBatch decode files i).isNone) = some j →
      runSteps api decode files is acc s = .error j := by
  intro is
  induction is with
  | nil => intro acc s j hj; simp [List.find?] at hj
  | cons i t ih =>
    intro acc s j hj
    cases hbb : buildBatch decode files i with
    | none =>
      have hij : i = j := by simp [List.find?, hbb] at hj; exact hj
      subst hij
      simp [runSteps, hbb]
    | some b =>
      simp only [List.find?, hbb, Option.isNone_some, cond_false] at hj
      simp only [runSteps, hbb]
      exact ih (acc + (runStep api s b).1) (runStep api s b).2 j hj

/-- The four-way minimum `minFileLen` is attained by one of the classes. -/
lemma minFileLen_attained (files : String → List String) :
    ∃ b ∈ animalsOrder, (files b).length = minFileLen files := by
  rcases min_choice (files dog).length
      (min (files cat).length (min (files elephant).length (files cow).length)) with h1 | h1
  · exact ⟨dog, by simp [animalsOrder], by rw [minFileLen, h1]⟩
  · rcases min_choice (files cat).length
        (min (files elephant).length (files cow).length) with h2 | h2
    · exact ⟨cat, by simp [animalsOrder], by rw [minFileLen, h1, h2]⟩
    · rcases min_choice (files elephant).length (files cow).length with h3 | h3
      · exact ⟨elephant, by simp [animalsOrder], by rw [minFileLen, h1, h2, h3]⟩
      · exact ⟨cow, by simp [animalsOrder], by rw [minFileLen, h1, h2, h3]⟩

/-- Every class has at least `minFileLen` files. -/
lemma minFileLen_le (files : String → List String) :
    ∀ a ∈ animalsOrder, minFileLen files ≤ (files a).length := by
  intro a ha
  simp only [animalsOrder, List.mem_cons, List.not_mem_nil, or_false] at ha
  rcases ha with rfl | rfl | rfl | rfl <;> simp [minFileLen]

/-- C8: a missing class directory makes the dataset indexer return an
empty list for that class (without raising); and whenever some class has
fewer than `N` files, the training loop (run for at least one epoch over
`N` samples per class) aborts with an out-of-range index access whose
failing sample index is the length of the shortest class list — the
first index out of range for that class. -/
theorem dataset_missing_and_short_fails {S : Type} (api : OrtApi S)
    (decode : String → Img) (fs : String → Option (List String))
    (files : String → List String) (a : String) (E N : ℕ) (s0 : S)
    (ha : a ∈ animalsOrder) (hmiss : fs (imagePattern a) = none)
    (hshort : minFileLen files < N) (hE : 0 < E) :
    (a, ([] : List String)) ∈ load_dataset_files fs ∧
    trainingLoop api decode files E N s0 = .error (minFileLen files) ∧
    ∃ b ∈ animalsOrder, (files b).length = minFileLen files ∧ (files b).length < N := by
  obtain ⟨b, hbmem, hbeq⟩ := minFileLen_attained files
  refine ⟨?_, ?_, ⟨b, hbmem, hbeq, by omega⟩⟩
  · exact List.mem_map.mpr ⟨a, ha, by simp [globMatches, hmiss]⟩
  · have hfind : (List.range N).find?
        (fun i => (buildBatch decode files i).isNone) = some (minFileLen files) := by
      rw [List.range_eq_range']
      apply find_first_range' _ N 0 (minFileLen files) (Nat.zero_le _) (by omega)
      · intro i _ hi
        have hAll : ∀ c ∈ animalsOrder, i < (files c).length :=
          fun c hc => lt_of_lt_of_le hi (minFileLen_le files c hc)
        rw [buildBatch,
          buildBatchGo_eq_some decode files i animalsOrder hAll lookupId_all_isSome]
        rfl
      · have : buildBatch decode files (minFileLen files) = none :=
          buildBatchGo_eq_none decode files (minFileLen files) animalsOrder
            ⟨b, hbmem, by omega⟩
        simp [this]
    have herr : runEpoch api decode files N s0 = .error (minFileLen files) := by
      rw [runEpoch]
      exact runSteps_eq_error api decode files (List.range N) 0 (api.trainMode s0) _ hfind
    cases E with
    | zero => omega
    | succ e => simp [trainingLoop, herr]

/-- Witness for C8: every directory missing, every class list empty, a
5-epoch 20-sample run under the trivial runtime failing at index 0. -/
theorem dataset_missing_and_short_fails_witness :
    dog ∈ animalsOrder ∧ noneFS (imagePattern dog) = none ∧
    minFileLen emptyFiles < num_samples_per_class ∧ 0 < num_epochs ∧
    ((dog, ([] : List String)) ∈ load_dataset_files noneFS ∧
     trainingLoop trivialApi trivialDecode emptyFiles
        num_epochs num_samples_per_class () = .error (minFileLen emptyFiles) ∧
     ∃ b ∈ animalsOrder, (emptyFiles b).length = minFileLen emptyFiles ∧
        (emptyFiles b).length < num_samples_per_class) :=
  ⟨by decide, rfl, by decide, by decide,
   dataset_missing_and_short_fails trivialApi trivialDecode noneFS emptyFiles dog
     num_epochs num_samples_per_class () (by decide) rfl (by decide) (by decide)⟩

end OrtDemo
